import Mathlib

/-!
# version-gen: the ecs-cli version file generator

A shallow embedding of `ecs-cli/modules/version/gen/version-gen.go`.

Go strings are Lean `String`s.  The parts of the outside world the program
reads (the VERSION file, the environment, the outcome of the two `git`
subprocesses, whether `version.go` can be created and written) are gathered
in `World`;
the parts it changes (the contents of `version.go`, the subprocesses it has
executed) are the explicit `State` threaded through `main`.
-/

namespace VersionGen

/-! ## Fragments of the Go standard library used by the program -/

/-- Go `unicode.IsSpace`: the Unicode White_Space property. -/
def isSpace (c : Char) : Bool :=
  let n := c.toNat
  (9 ≤ n && n ≤ 13) || n = 32 || n = 0x85 || n = 0xA0 || n = 0x1680 ||
  (0x2000 ≤ n && n ≤ 0x200a) || n = 0x2028 || n = 0x2029 || n = 0x202f ||
  n = 0x205f || n = 0x3000

/-- Go `strings.TrimSpace`: the string without its leading and trailing white space. -/
def TrimSpace (s : String) : String :=
  ⟨(s.data.dropWhile isSpace).rdropWhile isSpace⟩

/-- A parsed `text/template`: literal text and `{{.Field}}` actions, the two
node kinds that occur in `versiongoTemplate`. -/
inductive Node where
  | text (s : String)
  | field (name : String)
  deriving DecidableEq, Repr

/-- Characters allowed in a field name (`text/template` lexer, `isAlphaNumeric`),
restricted to ASCII letters and digits, which is all the template uses. -/
def isAlphaNumeric (c : Char) : Bool :=
  c = '_' || c.isAlpha || c.isDigit

/-- The body of an action, between `{{` and `}}`: a single field reference
`.Name`, possibly surrounded by blanks.  Any other action is outside the
modelled fragment and is reported as a parse failure. -/
def parseAction (body : List Char) : Option Node :=
  match (body.dropWhile (fun c => c = ' ')).rdropWhile (fun c => c = ' ') with
  | '.' :: name =>
    if !name.isEmpty && name.all isAlphaNumeric then some (Node.field ⟨name⟩) else none
  | _ => none

/-- Emit the pending literal text (kept reversed) as a text node unless it is empty. -/
def pushText (acc : List Char) (nodes : List Node) : List Node :=
  if acc.isEmpty then nodes else Node.text ⟨acc.reverse⟩ :: nodes

/-- The template scanner: `inAction` says whether the scanner is between the
delimiters, `acc` is the text read so far (reversed), `nodes` the nodes
produced so far (reversed). -/
def parseAux : List Char → Bool → List Char → List Node → Option (List Node)
  | [], false, acc, nodes => some (pushText acc nodes).reverse
  | [], true, _, _ => none
  | '{' :: '{' :: rest, false, acc, nodes => parseAux rest true [] (pushText acc nodes)
  | '}' :: '}' :: rest, true, acc, nodes =>
    match parseAction acc.reverse with
    | some n => parseAux rest false [] (n :: nodes)
    | none => none
  | c :: rest, inAction, acc, nodes => parseAux rest inAction (c :: acc) nodes

/-- Go `template.New(..).Parse`: `none` is a parse error. -/
def Parse (tmpl : String) : Option (List Node) :=
  parseAux tmpl.data false [] []

/-! ## The program -/

/-- The template of the generated file (`versiongoTemplate`). -/
def versiongoTemplate : String :=
  "// This is an autogenerated file and should not be edited.

// Copyright 2015-2017 Amazon.com, Inc. or its affiliates. All Rights Reserved.
//
// Licensed under the Apache License, Version 2.0 (the \"License\"). You may
// not use this file except in compliance with the License. A copy of the
// License is located at
//
//\thttp://aws.amazon.com/apache2.0/
//
// or in the \"license\" file accompanying this file. This file is distributed
// on an \"AS IS\" BASIS, WITHOUT WARRANTIES OR CONDITIONS OF ANY KIND, either
// express or implied. See the License for the specific language governing
// permissions and limitations under the License.

// Package version contains constants to indicate the current version of the
// ecs-cli. It is autogenerated
package version

// Please DO NOT commit any changes to this file (specifically the hash) except
// for those created by running ./scripts/update-version at the root of the
// repository. Only the \x27Version\x27 const should change in checked-in source code

// Version is the version of the ECS CLI
const Version = \"\x7b\x7b.Version\x7d\x7d\"

// GitDirty indicates the cleanliness of the git repo when this ecs-cli was built
const GitDirty = \x7b\x7b.Dirty\x7d\x7d

// GitShortHash is the short hash of this ecs-cli build
const GitShortHash = \"\x7b\x7b.Hash\x7d\x7d\"\n"

/-- The value handed to the template (`versionInfo`). -/
structure versionInfo where
  Version : String
  Dirty : Bool
  Hash : String
  deriving DecidableEq, Repr

/-- Evaluation of a field reference against a `versionInfo`, printed the way
`text/template` prints a value (`fmt.Fprint`): a string verbatim, a boolean
as `true` or `false`.  `none`: the struct has no such field. -/
def evalField (info : versionInfo) (name : String) : Option String :=
  if name = "Version" then some info.Version
  else if name = "Dirty" then some (if info.Dirty then "true" else "false")
  else if name = "Hash" then some info.Hash
  else none

/-- Go `(*Template).Execute` on a writer that holds `out`: the nodes are
written in order, each with one `Write` (a text node directly, the value of
an action through `fmt.Fprint`).  `writeOk i` says whether the `i`-th `Write`
of the run succeeds; a failed `Write` adds nothing.  Execution stops at the
first failing action or `Write`.  The result is what the writer holds
afterwards and whether execution completed (`err == nil`). -/
def Execute (writeOk : Nat → Bool) (info : versionInfo) :
    List Node → Nat → String → String × Bool
  | [], _, out => (out, true)
  | Node.text s :: ns, i, out =>
    if writeOk i = true then Execute writeOk info ns (i + 1) (out ++ s) else (out, false)
  | Node.field f :: ns, i, out =>
    match evalField info f with
    | some v =>
      if writeOk i = true then Execute writeOk info ns (i + 1) (out ++ v) else (out, false)
    | none => (out, false)

/-- How an attempt to run a subprocess to completion ended. -/
inductive ExecResult where
  /-- The process ran and exited with `status`, having written `stdout`. -/
  | exited (status : Nat) (stdout : String)
  /-- The process could not be started (executable not found, ...). -/
  | startFailed
  deriving DecidableEq, Repr

/-- The error value of `cmd.Run` and `cmd.Output`: `true` stands for
`err != nil`, which is every outcome but an exit with status zero. -/
def ExecResult.err : ExecResult → Bool
  | ExecResult.exited 0 _ => false
  | _ => true

/-- The bytes `cmd.Output` returns: the standard output of the process. -/
def ExecResult.output : ExecResult → String
  | ExecResult.exited _ out => out
  | ExecResult.startFailed => ""

/-- What the program reads from its surroundings. -/
structure World where
  /-- Result of `ioutil.ReadFile` on `../../../VERSION`: `none` is a read error. -/
  versionFile : Option String
  /-- The process environment: `none` for an unset variable. -/
  env : String → Option String
  /-- Outcome of executing a command line. -/
  exec : List String → ExecResult
  /-- Whether `os.Create("version.go")` succeeds. -/
  canCreate : Bool
  /-- Whether the `i`-th `Write` to the created `version.go` succeeds
  (it fails on a full device, for one). -/
  writeOk : Nat → Bool

/-- What the program can change. -/
structure State where
  /-- Contents of `version.go` in the working directory: `none` when absent. -/
  versionGo : Option String
  /-- The command lines executed so far, oldest first. -/
  trace : List (List String)
  deriving DecidableEq, Repr

/-- Go `os.Getenv`: the empty string for an unset variable. -/
def Getenv (w : World) (key : String) : String :=
  (w.env key).getD ""

/-- Running `exec.Command(argv...)` to completion: the call is recorded in the trace. -/
def runCommand (w : World) (s : State) (argv : List String) : ExecResult × State :=
  (w.exec argv, { s with trace := s.trace ++ [argv] })

/-- Source `gitDirty`. -/
def gitDirty (w : World) (s : State) : Bool × State :=
  let (cmd, s) := runCommand w s ["git", "status", "--porcelain"]
  if cmd.err = false then
    (false, s)
  else
    (true, s)

/-- Source `gitHash`. -/
def gitHash (w : World) (s : State) : String × State :=
  let (cmd, s) := runCommand w s ["git", "rev-parse", "--short", "HEAD"]
  if cmd.err = true then
    ("UNKNOWN", s)
  else
    (TrimSpace cmd.output, s)

/-- The first half of `main`, after the VERSION file has been read: the
`versionInfo` built from the defaults, the environment and the repository. -/
def collectInfo (w : World) (s : State) (versionStr : String) : versionInfo × State :=
  -- default values
  let info : versionInfo :=
    { Version := TrimSpace versionStr, Dirty := true, Hash := "UNKNOWN" }
  let (info, s) :=
    if TrimSpace (Getenv w "ECS_RELEASE") = "cleanbuild" then
      let (d, s) := gitDirty w s
      ({ info with Dirty := d }, s)
    else (info, s)
  if Getenv w "ECS_UNKNOWN_VERSION" = "" then
    let (h, s) := gitHash w s
    ({ info with Hash := h }, s)
  else (info, s)

/-- Source `main`: the exit status of the process and the state it leaves.
`log.Fatal` and `log.Fatalf` exit with status 1, the panic of `template.Must`
with status 2.  `os.Create` truncates the file; `Execute` then writes to it,
and an error it returns (a failed action or a failed `Write`) is fatal, the
file keeping what was written before. -/
def main (w : World) (s : State) : Nat × State :=
  match w.versionFile with
  | none => (1, s)
  | some versionStr =>
    let (info, s) := collectInfo w s versionStr
    if w.canCreate = false then
      (1, s)
    else
      let s := { s with versionGo := some "" }
      match Parse versiongoTemplate with
      | none => (2, s)
      | some t =>
        let (written, ok) := Execute w.writeOk info t 0 ""
        let s := { s with versionGo := some written }
        if ok = false then (1, s) else (0, s)

/-! ## The generated file, as the specification describes it -/

/-- The command line of the status query. -/
def statusArgv : List String := ["git", "status", "--porcelain"]

/-- The command line of the short-hash query. -/
def hashArgv : List String := ["git", "rev-parse", "--short", "HEAD"]

/-- The fixed text of the generated file above its first declaration: the
notice, the license header, the package clause and the advisory comment,
down to the comment line of `Version` (without its line end). -/
def preamble : String :=
  "// This is an autogenerated file and should not be edited.

// Copyright 2015-2017 Amazon.com, Inc. or its affiliates. All Rights Reserved.
//
// Licensed under the Apache License, Version 2.0 (the \"License\"). You may
// not use this file except in compliance with the License. A copy of the
// License is located at
//
//\thttp://aws.amazon.com/apache2.0/
//
// or in the \"license\" file accompanying this file. This file is distributed
// on an \"AS IS\" BASIS, WITHOUT WARRANTIES OR CONDITIONS OF ANY KIND, either
// express or implied. See the License for the specific language governing
// permissions and limitations under the License.

// Package version contains constants to indicate the current version of the
// ecs-cli. It is autogenerated
package version

// Please DO NOT commit any changes to this file (specifically the hash) except
// for those created by running ./scripts/update-version at the root of the
// repository. Only the \x27Version\x27 const should change in checked-in source code

// Version is the version of the ECS CLI"

/-- The blank line and comment line above the `GitDirty` declaration. -/
def dirtyComment : String :=
  "\n// GitDirty indicates the cleanliness of the git repo when this ecs-cli was built"

/-- The blank line and comment line above the `GitShortHash` declaration. -/
def hashComment : String :=
  "\n// GitShortHash is the short hash of this ecs-cli build"

/-- The declaration line of `Version`: the value between double quotes. -/
def versionDecl (version : String) : String :=
  "const Version = \"" ++ version ++ "\""

/-- The declaration line of `GitDirty`: the value unquoted. -/
def dirtyDecl (dirty : String) : String :=
  "const GitDirty = " ++ dirty

/-- The declaration line of `GitShortHash`: the value between double quotes. -/
def hashDecl (hash : String) : String :=
  "const GitShortHash = \"" ++ hash ++ "\""

/-- The fixed text with three holes: what stands in the `Version`, `GitDirty`
and `GitShortHash` declarations is given, everything else is constant. -/
def renderedFile (version dirty hash : String) : String :=
  preamble ++ "\n" ++ versionDecl version ++ "\n" ++
  dirtyComment ++ "\n" ++ dirtyDecl dirty ++ "\n" ++
  hashComment ++ "\n" ++ hashDecl hash ++ "\n"

/-- The literal a boolean is rendered as. -/
def boolLiteral (b : Bool) : String :=
  if b then "true" else "false"

/-- The text `out` has `decl` as one of its lines (after the first). -/
def Declares (out decl : String) : Prop :=
  ∃ before after : String, out = before ++ "\n" ++ decl ++ "\n" ++ after

/-- The nodes `versiongoTemplate` parses to. -/
def templateNodes : List Node :=
  [Node.text (preamble ++ "\n" ++ "const Version = \""),
   Node.field "Version",
   Node.text ("\"" ++ "\n" ++ dirtyComment ++ "\n" ++ "const GitDirty = "),
   Node.field "Dirty",
   Node.text ("\n" ++ hashComment ++ "\n" ++ "const GitShortHash = \""),
   Node.field "Hash",
   Node.text ("\"" ++ "\n")]

/-- An environment that sets at most the two variables the program reads. -/
def envOf (release unknownVersion : Option String) : String → Option String :=
  fun key =>
    if key = "ECS_RELEASE" then release
    else if key = "ECS_UNKNOWN_VERSION" then unknownVersion
    else none

/-- A host on which the status query ends as `status` and the short-hash
query as `hash`; no other command can be started. -/
def execOf (status hash : ExecResult) : List String → ExecResult :=
  fun argv =>
    if argv = statusArgv then status
    else if argv = hashArgv then hash
    else ExecResult.startFailed

/-- The world in which VERSION reads as `version`, the two variables are set
as given, the two queries end as given, `version.go` can be created or not,
and no `Write` fails. -/
def worldOf (version release unknownVersion : Option String) (status hash : ExecResult)
    (canCreate : Bool) : World :=
  { versionFile := version
    env := envOf release unknownVersion
    exec := execOf status hash
    canCreate := canCreate
    writeOk := fun _ => true }

/-- A host with a working source-control tool and a full device: VERSION holds
`1.2.3`, both queries succeed, `version.go` can be created, and every `Write`
to it fails. -/
def fullDeviceWorld : World :=
  { versionFile := some "1.2.3\n"
    env := envOf none none
    exec := execOf (ExecResult.exited 0 "") (ExecResult.exited 0 "abc1234\n")
    canCreate := true
    writeOk := fun _ => false }

/-- Every `Write` the run makes to `version.go` succeeds: executing
`versiongoTemplate` makes seven, one for each of its four texts and three
actions. -/
def World.WritesSucceed (w : World) : Prop :=
  ∀ i, i < 7 → w.writeOk i = true

/-- A host without the source-control tool, building a release: VERSION holds
`1.2.3`, ECS_RELEASE is `cleanbuild`, and no command can be started. -/
def toolMissingWorld : World :=
  worldOf (some "1.2.3\n") (some "cleanbuild") none ExecResult.startFailed
    ExecResult.startFailed true

/-- A working directory without `version.go` in which nothing has been executed. -/
def freshState : State :=
  { versionGo := none, trace := [] }

/-- A subprocess outcome with `err != nil`: a non-zero exit or a failure to start. -/
def ExecResult.Failed (r : ExecResult) : Prop :=
  r = ExecResult.startFailed ∨ ∃ status stdout, status ≠ 0 ∧ r = ExecResult.exited status stdout

/-! ## The template and its rendering -/

theorem parse_versiongoTemplate : Parse versiongoTemplate = some templateNodes := by
  decide!

theorem versiongoTemplate_holes :
    versiongoTemplate = renderedFile "\x7b\x7b.Version\x7d\x7d" "\x7b\x7b.Dirty\x7d\x7d" "\x7b\x7b.Hash\x7d\x7d" := by
  decide!

theorem execute_templateNodes (writeOk : Nat → Bool) (info : versionInfo)
    (hwrite : ∀ i, i < 7 → writeOk i = true) :
    Execute writeOk info templateNodes 0 "" =
      (renderedFile info.Version (boolLiteral info.Dirty) info.Hash, true) := by
  have h0 := hwrite 0 (by decide)
  have h1 := hwrite 1 (by decide)
  have h2 := hwrite 2 (by decide)
  have h3 := hwrite 3 (by decide)
  have h4 := hwrite 4 (by decide)
  have h5 := hwrite 5 (by decide)
  have h6 := hwrite 6 (by decide)
  simp only [templateNodes, Execute, evalField, renderedFile, versionDecl, dirtyDecl, hashDecl,
    boolLiteral, String.append_assoc, String.empty_append, if_true, if_false, if_pos, if_neg,
    Nat.reduceAdd, h0, h1, h2, h3, h4, h5, h6,
    show ("Dirty" = "Version") = False from by decide,
    show ("Hash" = "Version") = False from by decide,
    show ("Hash" = "Dirty") = False from by decide]

/-- A run of `Execute` over nodes whose actions all evaluate completes exactly
when each of its writes succeeds. -/
theorem execute_ok_iff (writeOk : Nat → Bool) (info : versionInfo) (ns : List Node)
    (hfields : ∀ f, Node.field f ∈ ns → evalField info f ≠ none) (k : Nat) (out : String) :
    (Execute writeOk info ns k out).2 = true ↔ ∀ i, i < ns.length → writeOk (k + i) = true := by
  induction ns generalizing k out with
  | nil => simp [Execute]
  | cons n ns ih =>
    have hrest : ∀ f, Node.field f ∈ ns → evalField info f ≠ none :=
      fun f hf => hfields f (List.mem_cons_of_mem n hf)
    have hstep : (∀ i, i < (n :: ns).length → writeOk (k + i) = true) ↔
        writeOk k = true ∧ ∀ i, i < ns.length → writeOk (k + 1 + i) = true := by
      constructor
      · intro h
        refine ⟨by simpa using h 0 (by simp), fun i hi => ?_⟩
        have := h (i + 1) (by simpa using hi)
        rwa [show k + 1 + i = k + (i + 1) from by omega]
      · rintro ⟨h0, h⟩ i hi
        cases i with
        | zero => simpa using h0
        | succ j =>
          have := h j (by simpa using hi)
          rwa [show k + 1 + j = k + (j + 1) from by omega] at this
    rw [hstep]
    cases n with
    | text t =>
      by_cases hk : writeOk k = true
      · simp only [Execute, hk, if_true, true_and]
        exact ih hrest (k + 1) (out ++ t)
      · simp [Execute, hk]
    | field f =>
      obtain ⟨v, hv⟩ := Option.ne_none_iff_exists'.mp (hfields f (List.mem_cons_self _ _))
      by_cases hk : writeOk k = true
      · simp only [Execute, hv, hk, if_true, true_and]
        exact ih hrest (k + 1) (out ++ v)
      · simp [Execute, hv, hk]

/-- Executing `versiongoTemplate` completes exactly when its seven writes succeed. -/
theorem execute_templateNodes_ok_iff (writeOk : Nat → Bool) (info : versionInfo) :
    (Execute writeOk info templateNodes 0 "").2 = true ↔ ∀ i, i < 7 → writeOk i = true := by
  have hfields : ∀ f, Node.field f ∈ templateNodes → evalField info f ≠ none := by
    intro f hf
    simp [templateNodes] at hf
    rcases hf with h | h | h <;> subst h <;> simp [evalField]
  have h := execute_ok_iff writeOk info templateNodes hfields 0 ""
  simpa [templateNodes] using h

/-! ## White space trimming -/

theorem dropWhile_append_stop (p : Char → Bool) (l₁ : List Char) (x : Char) (l₂ : List Char)
    (h₁ : ∀ c ∈ l₁, p c = true) (hx : p x = false) :
    (l₁ ++ x :: l₂).dropWhile p = x :: l₂ := by
  induction l₁ with
  | nil => simp [List.dropWhile, hx]
  | cons a l ih =>
    have ha : p a = true := h₁ a (List.mem_cons_self a l)
    have hl : ∀ c ∈ l, p c = true := fun c hc => h₁ c (List.mem_cons_of_mem a hc)
    simp [List.dropWhile, ha, ih hl]

theorem rdropWhile_append_stop (p : Char → Bool) (l₁ : List Char) (x : Char) (l₂ : List Char)
    (h₂ : ∀ c ∈ l₂, p c = true) (hx : p x = false) :
    (l₁ ++ x :: l₂).rdropWhile p = l₁ ++ [x] := by
  have h : (l₁ ++ x :: l₂).reverse = l₂.reverse ++ x :: l₁.reverse := by simp
  have h₂r : ∀ c ∈ l₂.reverse, p c = true := fun c hc => h₂ c (List.mem_reverse.mp hc)
  rw [List.rdropWhile, h, dropWhile_append_stop p l₂.reverse x l₁.reverse h₂r hx]
  simp

/-- Trimming a text made of white space, a core that neither starts nor ends
with white space, and white space again, leaves the core. -/
theorem TrimSpace_sandwich (lead core trail : List Char) (hne : core ≠ [])
    (hlead : ∀ c ∈ lead, isSpace c = true) (htrail : ∀ c ∈ trail, isSpace c = true)
    (hfirst : isSpace (core.head hne) = false) (hlast : isSpace (core.getLast hne) = false) :
    TrimSpace ⟨lead ++ core ++ trail⟩ = ⟨core⟩ := by
  obtain ⟨x, rest, rfl⟩ := List.exists_cons_of_ne_nil hne
  have h1 : (lead ++ x :: rest ++ trail).dropWhile isSpace = x :: rest ++ trail := by
    have := dropWhile_append_stop isSpace lead x (rest ++ trail) hlead (by simpa using hfirst)
    simpa [List.append_assoc] using this
  obtain ⟨ini, y, hy⟩ : ∃ ini y, x :: rest = ini ++ [y] :=
    ⟨(x :: rest).dropLast, (x :: rest).getLast hne, (List.dropLast_append_getLast hne).symm⟩
  have hylast : (x :: rest).getLast hne = y := by
    simp [hy]
  have h2 : (x :: rest ++ trail).rdropWhile isSpace = x :: rest := by
    have := rdropWhile_append_stop isSpace ini y trail htrail (by rw [← hylast]; exact hlast)
    rw [hy]
    simpa [List.append_assoc] using this
  simp only [TrimSpace, h1, h2]

/-- What `TrimSpace` removes is white space at both ends, and what it leaves
neither starts nor ends with white space. -/
theorem TrimSpace_decompose (v : String) :
    ∃ lead trail : List Char,
      v.data = lead ++ (TrimSpace v).data ++ trail ∧
      (∀ c ∈ lead, isSpace c = true) ∧ (∀ c ∈ trail, isSpace c = true) ∧
      (∀ c, (TrimSpace v).data.head? = some c → isSpace c = false) ∧
      (∀ c, (TrimSpace v).data.getLast? = some c → isSpace c = false) := by
  have hsplit : v.data = v.data.takeWhile isSpace ++ v.data.dropWhile isSpace :=
    (List.takeWhile_append_dropWhile isSpace v.data).symm
  have hrsplit : v.data.dropWhile isSpace =
      (v.data.dropWhile isSpace).rdropWhile isSpace ++
        (v.data.dropWhile isSpace).rtakeWhile isSpace := by
    have h := List.takeWhile_append_dropWhile isSpace (v.data.dropWhile isSpace).reverse
    have h' := congrArg List.reverse h
    simp only [List.reverse_append, List.reverse_reverse] at h'
    exact h'.symm
  refine ⟨v.data.takeWhile isSpace, (v.data.dropWhile isSpace).rtakeWhile isSpace, ?_, ?_, ?_,
    ?_, ?_⟩
  · show v.data = _ ++ (v.data.dropWhile isSpace).rdropWhile isSpace ++ _
    rw [List.append_assoc, ← hrsplit]
    exact hsplit
  · intro c hc
    exact List.mem_takeWhile_imp hc
  · intro c hc
    exact List.mem_rtakeWhile_imp hc
  · intro c hc
    change ((v.data.dropWhile isSpace).rdropWhile isSpace).head? = some c at hc
    have hd : (v.data.dropWhile isSpace).head? = some c := by
      rw [hrsplit]
      cases hl : (v.data.dropWhile isSpace).rdropWhile isSpace with
      | nil => rw [hl] at hc; simp at hc
      | cons a l => rw [hl] at hc; simpa using hc
    have := List.head?_dropWhile_not isSpace v.data
    rw [hd] at this
    simpa using this
  · intro c hc
    change ((v.data.dropWhile isSpace).rdropWhile isSpace).getLast? = some c at hc
    have hne : (v.data.dropWhile isSpace).rdropWhile isSpace ≠ [] := by
      intro h; rw [h] at hc; simp at hc
    have hnot := List.rdropWhile_last_not (p := isSpace) (l := v.data.dropWhile isSpace) hne
    rw [List.getLast?_eq_getLast _ hne] at hc
    have hc' := Option.some.inj hc
    rw [hc'] at hnot
    simpa using hnot

/-! ## The steps of `main` -/

theorem gitDirty_eq (w : World) (s : State) :
    gitDirty w s =
      ((w.exec statusArgv).err, { versionGo := s.versionGo, trace := s.trace ++ [statusArgv] }) := by
  unfold gitDirty runCommand statusArgv
  cases h : (w.exec ["git", "status", "--porcelain"]).err <;> simp [h]

theorem gitHash_eq (w : World) (s : State) :
    gitHash w s =
      (if (w.exec hashArgv).err = true then "UNKNOWN" else TrimSpace (w.exec hashArgv).output,
        { versionGo := s.versionGo, trace := s.trace ++ [hashArgv] }) := by
  unfold gitHash runCommand hashArgv
  cases h : (w.exec ["git", "rev-parse", "--short", "HEAD"]).err <;> simp [h]

theorem collectInfo_Version (w : World) (s : State) (v : String) :
    (collectInfo w s v).1.Version = TrimSpace v := by
  simp only [collectInfo, gitDirty_eq, gitHash_eq]
  split_ifs <;> rfl

theorem collectInfo_Dirty (w : World) (s : State) (v : String) :
    (collectInfo w s v).1.Dirty =
      if TrimSpace (Getenv w "ECS_RELEASE") = "cleanbuild" then (w.exec statusArgv).err
      else true := by
  simp only [collectInfo, gitDirty_eq, gitHash_eq]
  split_ifs <;> rfl

theorem collectInfo_Hash (w : World) (s : State) (v : String) :
    (collectInfo w s v).1.Hash =
      if Getenv w "ECS_UNKNOWN_VERSION" = "" then
        (if (w.exec hashArgv).err = true then "UNKNOWN" else TrimSpace (w.exec hashArgv).output)
      else "UNKNOWN" := by
  simp only [collectInfo, gitDirty_eq, gitHash_eq]
  split_ifs <;> rfl

theorem collectInfo_trace (w : World) (s : State) (v : String) :
    (collectInfo w s v).2.trace =
      s.trace ++ (if TrimSpace (Getenv w "ECS_RELEASE") = "cleanbuild" then [statusArgv] else [])
        ++ (if Getenv w "ECS_UNKNOWN_VERSION" = "" then [hashArgv] else []) := by
  simp only [collectInfo, gitDirty_eq, gitHash_eq]
  split_ifs <;> simp

theorem collectInfo_versionGo (w : World) (s : State) (v : String) :
    (collectInfo w s v).2.versionGo = s.versionGo := by
  simp only [collectInfo, gitDirty_eq, gitHash_eq]
  split_ifs <;> rfl

theorem main_unreadable (w : World) (s : State) (h : w.versionFile = none) :
    main w s = (1, s) := by
  simp [main, h]

theorem main_uncreatable (w : World) (s : State) (v : String) (h : w.versionFile = some v)
    (hc : w.canCreate = false) : main w s = (1, (collectInfo w s v).2) := by
  simp [main, h, hc]

/-- Once `version.go` is created the run ends as `Execute` does. -/
theorem main_created (w : World) (s : State) (v : String) (h : w.versionFile = some v)
    (hc : w.canCreate = true) :
    main w s =
      (if (Execute w.writeOk (collectInfo w s v).1 templateNodes 0 "").2 = false then 1 else 0,
        { versionGo := some (Execute w.writeOk (collectInfo w s v).1 templateNodes 0 "").1,
          trace := (collectInfo w s v).2.trace }) := by
  simp [main, h, hc, parse_versiongoTemplate]
  split_ifs <;> rfl

theorem main_rendered (w : World) (s : State) (v : String) (h : w.versionFile = some v)
    (hc : w.canCreate = true) (hwrite : w.WritesSucceed) :
    main w s =
      (0, { versionGo := some (renderedFile (collectInfo w s v).1.Version
              (boolLiteral (collectInfo w s v).1.Dirty) (collectInfo w s v).1.Hash),
            trace := (collectInfo w s v).2.trace }) := by
  rw [main_created w s v h hc, execute_templateNodes w.writeOk _ hwrite]
  rfl

/-- The `versionInfo` collected and the commands executed depend on the world
only through the two variables and the outcomes of the queries that are run. -/
theorem collectInfo_congr (w w' : World) (s : State) (v : String)
    (hrel : w.env "ECS_RELEASE" = w'.env "ECS_RELEASE")
    (hunk : w.env "ECS_UNKNOWN_VERSION" = w'.env "ECS_UNKNOWN_VERSION")
    (hstatus : TrimSpace (Getenv w "ECS_RELEASE") = "cleanbuild" →
      (w.exec statusArgv).err = (w'.exec statusArgv).err)
    (hhash : Getenv w "ECS_UNKNOWN_VERSION" = "" → w.exec hashArgv = w'.exec hashArgv) :
    collectInfo w s v = collectInfo w' s v := by
  have e1 : Getenv w' "ECS_RELEASE" = Getenv w "ECS_RELEASE" := by
    simp only [Getenv, hrel]
  have e2 : Getenv w' "ECS_UNKNOWN_VERSION" = Getenv w "ECS_UNKNOWN_VERSION" := by
    simp only [Getenv, hunk]
  simp only [collectInfo, gitDirty_eq, gitHash_eq, e1, e2]
  by_cases h1 : TrimSpace (Getenv w "ECS_RELEASE") = "cleanbuild" <;>
    by_cases h2 : Getenv w "ECS_UNKNOWN_VERSION" = "" <;>
    simp only [h1, h2, if_true, if_false, if_pos, if_neg, not_false_eq_true] <;>
    first
      | rfl
      | rw [hstatus h1, hhash h2]
      | rw [hstatus h1]
      | rw [hhash h2]

/-- The run depends on the world only through VERSION, whether `version.go`
can be created, and what `collectInfo` reads. -/
theorem main_congr (w w' : World) (s : State)
    (hv : w.versionFile = w'.versionFile) (hc : w.canCreate = w'.canCreate)
    (hw : w.writeOk = w'.writeOk)
    (hinfo : ∀ v, collectInfo w s v = collectInfo w' s v) : main w s = main w' s := by
  cases hv' : w'.versionFile with
  | none =>
    rw [main_unreadable w s (hv.trans hv'), main_unreadable w' s hv']
  | some v =>
    cases hc' : w'.canCreate with
    | false =>
      rw [main_uncreatable w s v (hv.trans hv') (hc.trans hc'), main_uncreatable w' s v hv' hc',
        hinfo v]
    | true =>
      rw [main_created w s v (hv.trans hv') (hc.trans hc'), main_created w' s v hv' hc',
        hinfo v, hw]

/-- The `versionInfo` collected does not depend on the state the run starts in. -/
theorem collectInfo_info_of_state (w : World) (s s' : State) (v : String) :
    (collectInfo w s v).1 = (collectInfo w s' v).1 := by
  simp only [collectInfo, gitDirty_eq, gitHash_eq]
  split_ifs <;> rfl

theorem main_exit_rendered (w : World) (s : State) (v : String)
    (h : w.versionFile = some v) (hc : w.canCreate = true) (hwrite : w.WritesSucceed) :
    (main w s).1 = 0 := by
  rw [main_rendered w s v h hc hwrite]

/-- Once `version.go` is created the run succeeds exactly when no write fails. -/
theorem main_exit_created_iff (w : World) (s : State) (v : String)
    (h : w.versionFile = some v) (hc : w.canCreate = true) :
    (main w s).1 = 0 ↔ w.WritesSucceed := by
  have hiff := execute_templateNodes_ok_iff w.writeOk (collectInfo w s v).1
  unfold World.WritesSucceed
  rw [main_created w s v h hc, ← hiff]
  cases (Execute w.writeOk (collectInfo w s v).1 templateNodes 0 "").2 <;> simp

/-- The exit status depends on the world only through VERSION being readable,
`version.go` being creatable and the writes to it. -/
theorem main_exit_congr (w' w : World) (s' s : State)
    (hv : w'.versionFile = w.versionFile) (hc : w'.canCreate = w.canCreate)
    (hw : w'.writeOk = w.writeOk) : (main w' s').1 = (main w s).1 := by
  cases hvf : w.versionFile with
  | none =>
    rw [main_unreadable w s hvf, main_unreadable w' s' (hv.trans hvf)]
  | some v =>
    cases hcc : w.canCreate with
    | false =>
      rw [main_uncreatable w s v hvf hcc, main_uncreatable w' s' v (hv.trans hvf) (hc.trans hcc)]
    | true =>
      have hex : (Execute w.writeOk (collectInfo w' s' v).1 templateNodes 0 "").2 =
          (Execute w.writeOk (collectInfo w s v).1 templateNodes 0 "").2 := by
        rw [Bool.eq_iff_iff, execute_templateNodes_ok_iff, execute_templateNodes_ok_iff]
      rw [main_created w s v hvf hcc, main_created w' s' v (hv.trans hvf) (hc.trans hcc), hw]
      show (if (Execute w.writeOk (collectInfo w' s' v).1 templateNodes 0 "").2 = false
        then 1 else 0) = _
      rw [hex]

theorem main_versionGo_rendered (w : World) (s : State) (v : String)
    (h : w.versionFile = some v) (hc : w.canCreate = true) (hwrite : w.WritesSucceed) :
    (main w s).2.versionGo =
      some (renderedFile (collectInfo w s v).1.Version
        (boolLiteral (collectInfo w s v).1.Dirty) (collectInfo w s v).1.Hash) := by
  rw [main_rendered w s v h hc hwrite]

theorem err_exited_of_status (status : Nat) (out out' : String) :
    (ExecResult.exited status out).err = (ExecResult.exited status out').err := by
  cases status <;> rfl

/-! ## Lines of the generated file -/

theorem declares_versionDecl (v d h : String) :
    Declares (renderedFile v d h) (versionDecl v) :=
  ⟨preamble, dirtyComment ++ "\n" ++ dirtyDecl d ++ "\n" ++ hashComment ++ "\n" ++ hashDecl h ++ "\n",
    by simp only [renderedFile, String.append_assoc]⟩

theorem declares_dirtyDecl (v d h : String) :
    Declares (renderedFile v d h) (dirtyDecl d) :=
  ⟨preamble ++ "\n" ++ versionDecl v ++ "\n" ++ dirtyComment,
    hashComment ++ "\n" ++ hashDecl h ++ "\n",
    by simp only [renderedFile, String.append_assoc]⟩

theorem declares_hashDecl (v d h : String) :
    Declares (renderedFile v d h) (hashDecl h) :=
  ⟨preamble ++ "\n" ++ versionDecl v ++ "\n" ++ dirtyComment ++ "\n" ++ dirtyDecl d ++ "\n"
      ++ hashComment, "",
    by simp only [renderedFile, String.append_assoc, String.append_empty]⟩

/-! ## Subprocess outcomes -/

theorem err_of_exited_zero (r : ExecResult) (out : String) (h : r = ExecResult.exited 0 out) :
    r.err = false := by
  subst h; rfl

theorem err_of_failed (r : ExecResult) (h : r.Failed) : r.err = true := by
  rcases h with h | ⟨n, out, hn, h⟩
  · subst h; rfl
  · subst h
    cases n with
    | zero => exact absurd rfl hn
    | succ m => rfl

theorem failed_of_err (r : ExecResult) (h : r.err = true) : r.Failed := by
  cases r with
  | startFailed => exact Or.inl rfl
  | exited n out =>
    cases n with
    | zero => simp [ExecResult.err] at h
    | succ m => exact Or.inr ⟨m + 1, out, Nat.succ_ne_zero m, rfl⟩

theorem getenv_of_unset_or_empty (w : World) (key : String)
    (h : w.env key = none ∨ w.env key = some "") : Getenv w key = "" := by
  rcases h with h | h <;> simp [Getenv, h]

theorem getenv_of_set (w : World) (key val : String) (h : w.env key = some val) :
    Getenv w key = val := by
  simp [Getenv, h]

/-! ## The dirty flag -/

/-- C1: in a run that reaches rendering (VERSION readable, `version.go`
creatable and written without a write error), if the trimmed value of ECS_RELEASE is `cleanbuild` and the status
subprocess succeeds with empty output, the output declares
`const GitDirty = false`; if the trimmed value of ECS_RELEASE is anything else
(also unset), the output declares `const GitDirty = true`, whatever the status
subprocess would return. -/
theorem gitDirty_rendered_by_release (w : World) (s : State) (v : String)
    (hread : w.versionFile = some v) (hcreate : w.canCreate = true)
    (hwrite : w.WritesSucceed) :
    (TrimSpace (Getenv w "ECS_RELEASE") = "cleanbuild" →
      w.exec statusArgv = ExecResult.exited 0 "" →
        (main w s).2.versionGo =
            some (renderedFile (TrimSpace v) "false" (collectInfo w s v).1.Hash) ∧
          ∃ out, (main w s).2.versionGo = some out ∧ Declares out "const GitDirty = false") ∧
    (TrimSpace (Getenv w "ECS_RELEASE") ≠ "cleanbuild" →
        (main w s).2.versionGo =
            some (renderedFile (TrimSpace v) "true" (collectInfo w s v).1.Hash) ∧
          ∃ out, (main w s).2.versionGo = some out ∧ Declares out "const GitDirty = true") := by
  have hmain := main_rendered w s v hread hcreate hwrite
  have hD := collectInfo_Dirty w s v
  have hV := collectInfo_Version w s v
  refine ⟨fun hrel hst => ?_, fun hrel => ?_⟩
  · have hd : (collectInfo w s v).1.Dirty = false := by
      rw [hD, if_pos hrel]; exact err_of_exited_zero _ "" hst
    have hfile : (main w s).2.versionGo =
        some (renderedFile (TrimSpace v) "false" (collectInfo w s v).1.Hash) := by
      rw [hmain, hd, hV]; rfl
    exact ⟨hfile, _, hfile, declares_dirtyDecl _ "false" _⟩
  · have hd : (collectInfo w s v).1.Dirty = true := by
      rw [hD, if_neg hrel]
    have hfile : (main w s).2.versionGo =
        some (renderedFile (TrimSpace v) "true" (collectInfo w s v).1.Hash) := by
      rw [hmain, hd, hV]; rfl
    exact ⟨hfile, _, hfile, declares_dirtyDecl _ "true" _⟩

/-- Witness of C1: VERSION `1.2.3`, ECS_RELEASE ` cleanbuild`, a clean tree. -/
theorem gitDirty_rendered_by_release_witness :
    TrimSpace (Getenv (worldOf (some "1.2.3\n") (some " cleanbuild") none
        (ExecResult.exited 0 "") (ExecResult.exited 0 "abc1234\n") true) "ECS_RELEASE")
      = "cleanbuild" ∧
    (main (worldOf (some "1.2.3\n") (some " cleanbuild") none
        (ExecResult.exited 0 "") (ExecResult.exited 0 "abc1234\n") true)
      freshState).2.versionGo = some (renderedFile "1.2.3" "false" "abc1234") :=
  ⟨by decide,
   ((gitDirty_rendered_by_release (worldOf (some "1.2.3\n") (some " cleanbuild") none
        (ExecResult.exited 0 "") (ExecResult.exited 0 "abc1234\n") true)
      freshState "1.2.3\n" rfl rfl (fun _ _ => rfl)).1 (by decide) (by decide)).1.trans (by decide!)⟩

/-! ## The commit hash -/

/-- C2: when ECS_UNKNOWN_VERSION is unset or empty, then for every value of
ECS_RELEASE, in a run that reaches rendering (VERSION readable, `version.go`
creatable and written without a write error), the rendered GitShortHash is
the trimmed standard output of the hash subprocess if it succeeded, and
`UNKNOWN` if it failed (non-zero exit, or it could not be executed). -/
theorem gitShortHash_rendered_from_subprocess (w : World) (s : State) (v : String)
    (hread : w.versionFile = some v) (hcreate : w.canCreate = true)
    (hwrite : w.WritesSucceed)
    (hunset : w.env "ECS_UNKNOWN_VERSION" = none ∨ w.env "ECS_UNKNOWN_VERSION" = some "") :
    (∀ stdout, w.exec hashArgv = ExecResult.exited 0 stdout →
      (collectInfo w s v).1.Hash = TrimSpace stdout ∧
      (main w s).2.versionGo =
        some (renderedFile (TrimSpace v) (boolLiteral (collectInfo w s v).1.Dirty)
          (TrimSpace stdout)) ∧
      ∃ out, (main w s).2.versionGo = some out ∧ Declares out (hashDecl (TrimSpace stdout))) ∧
    ((w.exec hashArgv).Failed →
      (collectInfo w s v).1.Hash = "UNKNOWN" ∧
      (main w s).2.versionGo =
        some (renderedFile (TrimSpace v) (boolLiteral (collectInfo w s v).1.Dirty) "UNKNOWN") ∧
      ∃ out, (main w s).2.versionGo = some out ∧
        Declares out "const GitShortHash = \"UNKNOWN\"") := by
  have hmain := main_rendered w s v hread hcreate hwrite
  have hH := collectInfo_Hash w s v
  have hV := collectInfo_Version w s v
  rw [if_pos (getenv_of_unset_or_empty w _ hunset)] at hH
  refine ⟨fun stdout hok => ?_, fun hfail => ?_⟩
  · have hh : (collectInfo w s v).1.Hash = TrimSpace stdout := by
      rw [hH, err_of_exited_zero _ stdout hok, hok]; rfl
    have hfile : (main w s).2.versionGo =
        some (renderedFile (TrimSpace v) (boolLiteral (collectInfo w s v).1.Dirty)
          (TrimSpace stdout)) := by
      rw [hmain, hh, hV]
    exact ⟨hh, hfile, _, hfile, declares_hashDecl _ _ _⟩
  · have hh : (collectInfo w s v).1.Hash = "UNKNOWN" := by
      rw [hH, err_of_failed _ hfail]; rfl
    have hfile : (main w s).2.versionGo =
        some (renderedFile (TrimSpace v) (boolLiteral (collectInfo w s v).1.Dirty)
          "UNKNOWN") := by
      rw [hmain, hh, hV]
    exact ⟨hh, hfile, _, hfile, declares_hashDecl _ _ "UNKNOWN"⟩

/-- Witness of C2: ECS_UNKNOWN_VERSION unset, the hash subprocess prints `abc1234`. -/
theorem gitShortHash_rendered_from_subprocess_witness :
    (main (worldOf (some "1.2.3\n") none none (ExecResult.exited 1 "")
        (ExecResult.exited 0 "abc1234\n") true) freshState).2.versionGo
      = some (renderedFile "1.2.3" "true" "abc1234") :=
  ((gitShortHash_rendered_from_subprocess
      (worldOf (some "1.2.3\n") none none (ExecResult.exited 1 "")
        (ExecResult.exited 0 "abc1234\n") true)
      freshState "1.2.3\n" rfl rfl (fun _ _ => rfl) (Or.inl (by decide))).1 "abc1234\n" (by decide)).2.1.trans
    (by decide!)

/-- C3: for every non-empty value of ECS_UNKNOWN_VERSION (compared untrimmed,
so white space alone counts as non-empty) and every outcome of the hash
subprocess, in a run that renders (VERSION readable, `version.go` creatable
and written without a write error) the rendered GitShortHash is `UNKNOWN`,
and the hash subprocess is not consulted: it is not among the commands the run executes, and
replacing its outcome changes nothing in the result of the run. -/
theorem gitShortHash_unknown_when_requested (w : World) (s : State) (v val : String)
    (hread : w.versionFile = some v) (hcreate : w.canCreate = true)
    (hwrite : w.WritesSucceed)
    (hset : w.env "ECS_UNKNOWN_VERSION" = some val) (hval : val ≠ "") :
    (collectInfo w s v).1.Hash = "UNKNOWN" ∧
    (main w s).2.versionGo =
      some (renderedFile (TrimSpace v) (boolLiteral (collectInfo w s v).1.Dirty) "UNKNOWN") ∧
    (∃ out, (main w s).2.versionGo = some out ∧
      Declares out "const GitShortHash = \"UNKNOWN\"") ∧
    (∃ executed, (main w s).2.trace = s.trace ++ executed ∧ hashArgv ∉ executed) ∧
    (∀ outcome : ExecResult,
      main { w with exec := Function.update w.exec hashArgv outcome } s = main w s) := by
  have hmain := main_rendered w s v hread hcreate hwrite
  have hV := collectInfo_Version w s v
  have hne : ¬ Getenv w "ECS_UNKNOWN_VERSION" = "" := by
    rw [getenv_of_set w _ val hset]; exact hval
  have hh : (collectInfo w s v).1.Hash = "UNKNOWN" := by
    rw [collectInfo_Hash, if_neg hne]
  have hfile : (main w s).2.versionGo =
      some (renderedFile (TrimSpace v) (boolLiteral (collectInfo w s v).1.Dirty) "UNKNOWN") := by
    rw [hmain, hh, hV]
  refine ⟨hh, hfile, ⟨_, hfile, declares_hashDecl _ _ "UNKNOWN"⟩, ?_, ?_⟩
  · refine ⟨if TrimSpace (Getenv w "ECS_RELEASE") = "cleanbuild" then [statusArgv] else [], ?_, ?_⟩
    · rw [hmain]
      simp only [collectInfo_trace, if_neg hne, List.append_nil]
    · split_ifs <;> simp [statusArgv, hashArgv]
  · intro outcome
    have hsne : statusArgv ≠ hashArgv := by decide
    refine main_congr _ w s rfl rfl rfl (fun v' => collectInfo_congr _ w s v' rfl rfl ?_ ?_)
    · intro _
      exact congrArg ExecResult.err (Function.update_noteq hsne outcome w.exec)
    · intro hempty
      exact absurd hempty hne

/-- Witness of C3: ECS_UNKNOWN_VERSION holds a single blank. -/
theorem gitShortHash_unknown_when_requested_witness :
    (" " : String) ≠ "" ∧
    (collectInfo (worldOf (some "1.2.3\n") none (some " ") (ExecResult.exited 0 "")
        (ExecResult.exited 0 "abc1234\n") true) freshState "1.2.3\n").1.Hash = "UNKNOWN" :=
  ⟨by decide,
   (gitShortHash_unknown_when_requested
      (worldOf (some "1.2.3\n") none (some " ") (ExecResult.exited 0 "")
        (ExecResult.exited 0 "abc1234\n") true)
      freshState "1.2.3\n" " " rfl rfl (fun _ _ => rfl) (by decide) (by decide)).1⟩

/-! ## The version string -/

/-- C4: for every readable VERSION file, every environment and every
subprocess outcome, in a run that reaches rendering (`version.go` creatable
and written without a write error) the output contains the
line `const Version = "` followed by the contents of VERSION without their
leading and trailing white space followed by `"`: the contents are some white
space, the rendered value, and some white space again; the rendered value
neither starts nor ends with white space; and whenever the contents are white
space, a core that neither starts nor ends with white space, and white space,
the rendered value is that core, interior characters unchanged. -/
theorem version_rendered_trimmed (w : World) (s : State) (v : String)
    (hread : w.versionFile = some v) (hcreate : w.canCreate = true)
    (hwrite : w.WritesSucceed) :
    (∃ dirty hash out, (main w s).2.versionGo = some out ∧
      out = renderedFile (TrimSpace v) dirty hash ∧
      Declares out ("const Version = \"" ++ TrimSpace v ++ "\"")) ∧
    (∃ lead trail : List Char,
      v.data = lead ++ (TrimSpace v).data ++ trail ∧
      (∀ c ∈ lead, isSpace c = true) ∧ (∀ c ∈ trail, isSpace c = true) ∧
      (∀ c, (TrimSpace v).data.head? = some c → isSpace c = false) ∧
      (∀ c, (TrimSpace v).data.getLast? = some c → isSpace c = false)) ∧
    (∀ (lead core trail : List Char) (hne : core ≠ []),
      v.data = lead ++ core ++ trail →
      (∀ c ∈ lead, isSpace c = true) → (∀ c ∈ trail, isSpace c = true) →
      isSpace (core.head hne) = false → isSpace (core.getLast hne) = false →
      TrimSpace v = ⟨core⟩) := by
  have hmain := main_rendered w s v hread hcreate hwrite
  refine ⟨⟨boolLiteral (collectInfo w s v).1.Dirty, (collectInfo w s v).1.Hash, _, ?_, rfl,
    declares_versionDecl _ _ _⟩, TrimSpace_decompose v, ?_⟩
  · rw [hmain, collectInfo_Version]
  · intro lead core trail hne hv hlead htrail hfirst hlast
    have h := TrimSpace_sandwich lead core trail hne hlead htrail hfirst hlast
    rw [← hv] at h
    exact h

/-- Witness of C4: VERSION holds `1.2.3` between a blank and a tab, and a line end. -/
theorem version_rendered_trimmed_witness :
    ∃ dirty hash out,
      (main (worldOf (some " \t1.2.3 \n") none none (ExecResult.exited 0 "")
        (ExecResult.exited 0 "abc1234\n") true) freshState).2.versionGo = some out ∧
      out = renderedFile (TrimSpace " \t1.2.3 \n") dirty hash ∧
      Declares out ("const Version = \"" ++ TrimSpace " \t1.2.3 \n" ++ "\"") :=
  (version_rendered_trimmed
    (worldOf (some " \t1.2.3 \n") none none (ExecResult.exited 0 "")
      (ExecResult.exited 0 "abc1234\n") true) freshState " \t1.2.3 \n" rfl rfl (fun _ _ => rfl)).1

/-! ## Failure of the status query -/

/-- C5, as the code has it: when the dirty check is enabled (trimmed
ECS_RELEASE is `cleanbuild`) and the status subprocess fails in any way, a
failure to start included, the dirty flag is true and the output (of a run
that renders it without a write error) declares `const GitDirty = true`. -/
theorem gitDirty_failure_is_dirty (w : World) (s : State) (v : String)
    (hread : w.versionFile = some v) (hcreate : w.canCreate = true)
    (hwrite : w.WritesSucceed)
    (hrel : TrimSpace (Getenv w "ECS_RELEASE") = "cleanbuild")
    (hfail : (w.exec statusArgv).Failed) :
    (gitDirty w s).1 = true ∧
    (collectInfo w s v).1.Dirty = true ∧
    (main w s).2.versionGo =
      some (renderedFile (TrimSpace v) "true" (collectInfo w s v).1.Hash) ∧
    ∃ out, (main w s).2.versionGo = some out ∧ Declares out "const GitDirty = true" := by
  have hmain := main_rendered w s v hread hcreate hwrite
  have hg : (gitDirty w s).1 = true := by
    rw [gitDirty_eq]; exact err_of_failed _ hfail
  have hd : (collectInfo w s v).1.Dirty = true := by
    rw [collectInfo_Dirty, if_pos hrel]; exact err_of_failed _ hfail
  have hfile : (main w s).2.versionGo =
      some (renderedFile (TrimSpace v) "true" (collectInfo w s v).1.Hash) := by
    rw [hmain, hd, collectInfo_Version]; rfl
  exact ⟨hg, hd, hfile, _, hfile, declares_dirtyDecl _ "true" _⟩

/-- Witness of the amended C5: the status query exits with status 128. -/
theorem gitDirty_failure_is_dirty_witness :
    (collectInfo (worldOf (some "1.2.3\n") (some "cleanbuild") none (ExecResult.exited 128 "")
      (ExecResult.exited 128 "") true) freshState "1.2.3\n").1.Dirty = true :=
  (gitDirty_failure_is_dirty
    (worldOf (some "1.2.3\n") (some "cleanbuild") none (ExecResult.exited 128 "")
      (ExecResult.exited 128 "") true) freshState "1.2.3\n" rfl rfl (fun _ _ => rfl) (by decide)
    (Or.inr ⟨128, "", by decide, by decide⟩)).2.1

/-- Counterexample to C5 as stated: on a host without the source-control tool
and with ECS_RELEASE set to `cleanbuild`, the status subprocess cannot be
started, `gitDirty` returns true and the generated file holds
`const GitDirty = true`, not `const GitDirty = false`. -/
theorem gitDirty_failure_not_clean :
    TrimSpace (Getenv toolMissingWorld "ECS_RELEASE") = "cleanbuild" ∧
    toolMissingWorld.exec statusArgv = ExecResult.startFailed ∧
    (gitDirty toolMissingWorld freshState).1 = true ∧
    (collectInfo toolMissingWorld freshState "1.2.3\n").1.Dirty = true ∧
    (main toolMissingWorld freshState).2.versionGo =
      some (renderedFile "1.2.3" "true" "UNKNOWN") ∧
    (main toolMissingWorld freshState).2.versionGo ≠
      some (renderedFile "1.2.3" "false" "UNKNOWN") := by
  refine ⟨by decide, by decide, by decide, by decide, by decide!, by decide!⟩

/-! ## An unreadable VERSION file -/

/-- C6: if the VERSION file cannot be read, then for every environment the
run ends with a non-zero exit status before any other step: `version.go` is
as it was (absent, or present with its prior contents) and no subprocess has
been executed. -/
theorem unreadable_version_is_fatal (w : World) (s : State) (hread : w.versionFile = none) :
    (main w s).1 ≠ 0 ∧
    (main w s).2.versionGo = s.versionGo ∧
    (main w s).2.trace = s.trace := by
  rw [main_unreadable w s hread]
  exact ⟨Nat.one_ne_zero, rfl, rfl⟩

/-- Witness of C6: no VERSION file, a `version.go` left by an earlier run. -/
theorem unreadable_version_is_fatal_witness :
    (main (worldOf none (some "cleanbuild") none (ExecResult.exited 0 "")
        (ExecResult.exited 0 "abc1234\n") true)
      { versionGo := some "package version\n", trace := [] }).2.versionGo
      = some "package version\n" :=
  (unreadable_version_is_fatal
    (worldOf none (some "cleanbuild") none (ExecResult.exited 0 "")
      (ExecResult.exited 0 "abc1234\n") true)
    { versionGo := some "package version\n", trace := [] } rfl).2.1

/-! ## Rendering -/

/-- C7: the template is the fixed text `renderedFile` with the three actions
in its three holes, and for every `versionInfo` executing the template (on a
writer whose writes succeed) gives that fixed text with Version and Hash verbatim between double quotes and
Dirty as the unquoted literal `true` or `false`, nothing else changed.  In
particular, with VERSION holding `1.2.3` and a line end, ECS_RELEASE and
ECS_UNKNOWN_VERSION unset and the hash subprocess returning `abc1234`, the
output declares `const Version = "1.2.3"`, `const GitDirty = true` and
`const GitShortHash = "abc1234"`. -/
theorem render_is_template_with_substitutions (w : World) (s : State)
    (hread : w.versionFile = some "1.2.3\n") (hcreate : w.canCreate = true)
    (hwrite : w.WritesSucceed)
    (hrel : w.env "ECS_RELEASE" = none) (hunk : w.env "ECS_UNKNOWN_VERSION" = none)
    (hhash : w.exec hashArgv = ExecResult.exited 0 "abc1234") :
    versiongoTemplate =
      renderedFile "\x7b\x7b.Version\x7d\x7d" "\x7b\x7b.Dirty\x7d\x7d" "\x7b\x7b.Hash\x7d\x7d" ∧
    (∀ info : versionInfo, ∃ t, Parse versiongoTemplate = some t ∧
      ∀ writeOk : Nat → Bool, (∀ i, i < 7 → writeOk i = true) →
        Execute writeOk info t 0 "" =
          (renderedFile info.Version (if info.Dirty = true then "true" else "false")
            info.Hash, true)) ∧
    (main w s).2.versionGo = some (renderedFile "1.2.3" "true" "abc1234") ∧
    ∃ out, (main w s).2.versionGo = some out ∧
      Declares out "const Version = \"1.2.3\"" ∧
      Declares out "const GitDirty = true" ∧
      Declares out "const GitShortHash = \"abc1234\"" := by
  have hV : (collectInfo w s "1.2.3\n").1.Version = "1.2.3" := by
    rw [collectInfo_Version]; decide
  have hD : (collectInfo w s "1.2.3\n").1.Dirty = true := by
    rw [collectInfo_Dirty, getenv_of_unset_or_empty w _ (Or.inl hrel)]
    exact if_neg (by decide)
  have hH : (collectInfo w s "1.2.3\n").1.Hash = "abc1234" := by
    rw [collectInfo_Hash, if_pos (getenv_of_unset_or_empty w _ (Or.inl hunk)), hhash]
    decide
  have hfile : (main w s).2.versionGo = some (renderedFile "1.2.3" "true" "abc1234") := by
    rw [main_versionGo_rendered w s _ hread hcreate hwrite, hV, hD, hH]; rfl
  exact ⟨versiongoTemplate_holes,
    fun info => ⟨templateNodes, parse_versiongoTemplate,
      fun writeOk hok => execute_templateNodes writeOk info hok⟩,
    hfile, _, hfile, declares_versionDecl "1.2.3" _ _, declares_dirtyDecl _ "true" _,
    declares_hashDecl _ _ "abc1234"⟩

/-- Witness of C7: the scenario on a host whose tree is clean. -/
theorem render_is_template_with_substitutions_witness :
    (main (worldOf (some "1.2.3\n") none none (ExecResult.exited 0 "")
        (ExecResult.exited 0 "abc1234") true) freshState).2.versionGo
      = some (renderedFile "1.2.3" "true" "abc1234") :=
  (render_is_template_with_substitutions
    (worldOf (some "1.2.3\n") none none (ExecResult.exited 0 "")
      (ExecResult.exited 0 "abc1234") true) freshState rfl rfl (fun _ _ => rfl) (by decide) (by decide)
    (by decide)).2.2.1

/-! ## Exit status -/

/-- C8, as the code has it: subprocess failures are never fatal.  For every
environment and every outcome of the status and hash subprocesses, if the
VERSION file is readable, `version.go` can be created and no write to it
fails, the run succeeds (exit 0) and writes a complete rendered output file;
the run fails only when the VERSION read, the output-file creation, or the
template render fails, and rendering the template fails exactly when one of
its seven writes does; the exit status is the same whatever the subprocesses
return. -/
theorem subprocess_failures_not_fatal (w : World) (s : State) :
    ((main w s).1 = 0 ↔
      (∃ v, w.versionFile = some v) ∧ w.canCreate = true ∧ w.WritesSucceed) ∧
    (∀ v, w.versionFile = some v → w.canCreate = true → w.WritesSucceed →
      (main w s).1 = 0 ∧
      ∃ dirty hash, (main w s).2.versionGo = some (renderedFile (TrimSpace v) dirty hash)) ∧
    ((main w s).1 ≠ 0 → w.versionFile = none ∨ w.canCreate = false ∨
      ∃ v t, w.versionFile = some v ∧ Parse versiongoTemplate = some t ∧
        (Execute w.writeOk (collectInfo w s v).1 t 0 "").2 = false) ∧
    (∃ t, Parse versiongoTemplate = some t ∧
      ∀ (writeOk : Nat → Bool) (info : versionInfo),
        (Execute writeOk info t 0 "").2 = true ↔ ∀ i, i < 7 → writeOk i = true) ∧
    (∀ exec' : List String → ExecResult,
      (main { w with exec := exec' } s).1 = (main w s).1) := by
  have hiff : (main w s).1 = 0 ↔
      (∃ v, w.versionFile = some v) ∧ w.canCreate = true ∧ w.WritesSucceed := by
    constructor
    · intro h0
      cases hv : w.versionFile with
      | none => rw [main_unreadable w s hv] at h0; exact absurd h0 Nat.one_ne_zero
      | some v =>
        cases hc : w.canCreate with
        | false => rw [main_uncreatable w s v hv hc] at h0; exact absurd h0 Nat.one_ne_zero
        | true => exact ⟨⟨v, rfl⟩, rfl, (main_exit_created_iff w s v hv hc).mp h0⟩
    · rintro ⟨⟨v, hv⟩, hc, hw⟩
      exact main_exit_rendered w s v hv hc hw
  refine ⟨hiff, fun v hv hc hw => ⟨main_exit_rendered w s v hv hc hw,
    boolLiteral (collectInfo w s v).1.Dirty, (collectInfo w s v).1.Hash, ?_⟩, fun hne => ?_,
    ⟨templateNodes, parse_versiongoTemplate, execute_templateNodes_ok_iff⟩, fun exec' => ?_⟩
  · rw [main_versionGo_rendered w s v hv hc hw, collectInfo_Version]
  · cases hv : w.versionFile with
    | none => exact Or.inl rfl
    | some v =>
      cases hc : w.canCreate with
      | false => exact Or.inr (Or.inl rfl)
      | true =>
        refine Or.inr (Or.inr ⟨v, templateNodes, rfl, parse_versiongoTemplate, ?_⟩)
        rw [main_created w s v hv hc] at hne
        cases hex : (Execute w.writeOk (collectInfo w s v).1 templateNodes 0 "").2 with
        | false => rfl
        | true => rw [hex] at hne; exact absurd rfl hne
  · exact main_exit_congr _ w s s rfl rfl rfl

/-- Witness of the amended C8: neither subprocess can be started, the run still succeeds. -/
theorem subprocess_failures_not_fatal_witness :
    (main toolMissingWorld freshState).1 = 0 ∧
    ∃ dirty hash, (main toolMissingWorld freshState).2.versionGo =
      some (renderedFile (TrimSpace "1.2.3\n") dirty hash) :=
  (subprocess_failures_not_fatal toolMissingWorld freshState).2.1 "1.2.3\n" rfl rfl
    (fun _ _ => rfl)

/-- Counterexample to C8 as stated: VERSION is readable, both subprocesses
succeed and `version.go` can be created, but the device is full and no write
succeeds; the run ends with exit status 1 and leaves `version.go` empty. -/
theorem write_failure_is_fatal :
    fullDeviceWorld.versionFile = some "1.2.3\n" ∧
    fullDeviceWorld.canCreate = true ∧
    fullDeviceWorld.exec statusArgv = ExecResult.exited 0 "" ∧
    fullDeviceWorld.exec hashArgv = ExecResult.exited 0 "abc1234\n" ∧
    (main fullDeviceWorld freshState).1 = 1 ∧
    (main fullDeviceWorld freshState).2.versionGo = some "" := by
  refine ⟨rfl, rfl, by decide, by decide, by decide!, by decide!⟩

/-! ## Running twice -/

/-- C9: for every prior state of `version.go` (absent, or present with any
contents), a successful run (VERSION readable, `version.go` creatable and
written without a write error) leaves `version.go` holding exactly the rendered
text; that text is the same for any two runs that agree on the VERSION
contents, the two variables and the outcomes of the two subprocesses,
whatever the prior contents; hence a second run from the state the first one
left, with the same inputs, succeeds and leaves the file byte-identical. -/
theorem generator_idempotent (w : World) (s : State) (v : String)
    (hread : w.versionFile = some v) (hcreate : w.canCreate = true)
    (hwrite : w.WritesSucceed) :
    (main w s).1 = 0 ∧
    (main w s).2.versionGo =
      some (renderedFile (TrimSpace v) (boolLiteral (collectInfo w freshState v).1.Dirty)
        (collectInfo w freshState v).1.Hash) ∧
    (∀ (w' : World) (s' : State), w'.versionFile = some v → w'.canCreate = true →
      w'.WritesSucceed →
      w'.env "ECS_RELEASE" = w.env "ECS_RELEASE" →
      w'.env "ECS_UNKNOWN_VERSION" = w.env "ECS_UNKNOWN_VERSION" →
      w'.exec statusArgv = w.exec statusArgv → w'.exec hashArgv = w.exec hashArgv →
      (main w' s').2.versionGo = (main w s).2.versionGo) ∧
    (main w (main w s).2).1 = 0 ∧
    (main w (main w s).2).2.versionGo = (main w s).2.versionGo := by
  have hfile : ∀ s₀ : State, (main w s₀).2.versionGo =
      some (renderedFile (TrimSpace v) (boolLiteral (collectInfo w freshState v).1.Dirty)
        (collectInfo w freshState v).1.Hash) := by
    intro s₀
    rw [main_versionGo_rendered w s₀ v hread hcreate hwrite, collectInfo_info_of_state w s₀ freshState,
      collectInfo_Version]
  refine ⟨main_exit_rendered w s v hread hcreate hwrite, hfile s, ?_,
    main_exit_rendered w _ v hread hcreate hwrite, (hfile _).trans (hfile s).symm⟩
  intro w' s' hread' hcreate' hwrite' hrel hunk hst hh
  have hci : collectInfo w' s' v = collectInfo w s' v :=
    collectInfo_congr w' w s' v hrel hunk (fun _ => congrArg ExecResult.err hst) (fun _ => hh)
  rw [main_versionGo_rendered w' s' v hread' hcreate' hwrite', hci, hfile s,
    collectInfo_info_of_state w s' freshState, collectInfo_Version]

/-- Witness of C9: a run over a stale `version.go`. -/
theorem generator_idempotent_witness :
    (main (worldOf (some "1.2.3\n") none none (ExecResult.exited 0 "")
        (ExecResult.exited 0 "abc1234\n") true)
      (main (worldOf (some "1.2.3\n") none none (ExecResult.exited 0 "")
        (ExecResult.exited 0 "abc1234\n") true)
        { versionGo := some "stale", trace := [] }).2).2.versionGo =
    (main (worldOf (some "1.2.3\n") none none (ExecResult.exited 0 "")
        (ExecResult.exited 0 "abc1234\n") true)
      { versionGo := some "stale", trace := [] }).2.versionGo :=
  (generator_idempotent
    (worldOf (some "1.2.3\n") none none (ExecResult.exited 0 "")
      (ExecResult.exited 0 "abc1234\n") true)
    { versionGo := some "stale", trace := [] } "1.2.3\n" rfl rfl (fun _ _ => rfl)).2.2.2.2

/-! ## The dirty check -/

/-- C10: when the dirty check is enabled (trimmed ECS_RELEASE is
`cleanbuild`), the dirty flag is decided by the exit status of the status
subprocess alone: it is true if and only if the subprocess returned an error
(non-zero exit, or it could not be executed), it is false on a successful
execution whatever the subprocess printed, and replacing the standard output
of the subprocess changes nothing in the result of the run. -/
theorem dirty_decided_by_exit_status (w : World) (s : State) (v : String)
    (hread : w.versionFile = some v) (hcreate : w.canCreate = true)
    (hwrite : w.WritesSucceed)
    (hrel : TrimSpace (Getenv w "ECS_RELEASE") = "cleanbuild") :
    ((gitDirty w s).1 = true ↔ (w.exec statusArgv).Failed) ∧
    ((collectInfo w s v).1.Dirty = true ↔ (w.exec statusArgv).Failed) ∧
    (∀ stdout, w.exec statusArgv = ExecResult.exited 0 stdout →
      (collectInfo w s v).1.Dirty = false ∧
      (main w s).2.versionGo =
        some (renderedFile (TrimSpace v) "false" (collectInfo w s v).1.Hash)) ∧
    (∀ status stdout stdout', w.exec statusArgv = ExecResult.exited status stdout →
      main { w with exec := Function.update w.exec statusArgv (ExecResult.exited status stdout') }
        s = main w s) := by
  have hD : (collectInfo w s v).1.Dirty = (w.exec statusArgv).err := by
    rw [collectInfo_Dirty, if_pos hrel]
  have hG : (gitDirty w s).1 = (w.exec statusArgv).err := by
    rw [gitDirty_eq]
  refine ⟨?_, ?_, fun stdout hok => ?_, fun status stdout stdout' hst => ?_⟩
  · rw [hG]; exact ⟨failed_of_err _, err_of_failed _⟩
  · rw [hD]; exact ⟨failed_of_err _, err_of_failed _⟩
  · have hd : (collectInfo w s v).1.Dirty = false := by
      rw [hD]; exact err_of_exited_zero _ stdout hok
    refine ⟨hd, ?_⟩
    rw [main_versionGo_rendered w s v hread hcreate hwrite, hd, collectInfo_Version]; rfl
  · have hne : hashArgv ≠ statusArgv := by decide
    refine main_congr _ w s rfl rfl rfl (fun v' => collectInfo_congr _ w s v' rfl rfl ?_ ?_)
    · intro _
      show (Function.update w.exec statusArgv (ExecResult.exited status stdout') statusArgv).err
        = (w.exec statusArgv).err
      rw [Function.update_same, hst]
      exact err_exited_of_status status stdout' stdout
    · intro _
      exact Function.update_noteq hne (ExecResult.exited status stdout') w.exec

/-- Witness of C10: a dirty tree, whose status query succeeds and prints a line. -/
theorem dirty_decided_by_exit_status_witness :
    (collectInfo (worldOf (some "1.2.3\n") (some "cleanbuild") none
        (ExecResult.exited 0 " M README.md\n") (ExecResult.exited 0 "abc1234\n") true)
      freshState "1.2.3\n").1.Dirty = false :=
  ((dirty_decided_by_exit_status
    (worldOf (some "1.2.3\n") (some "cleanbuild") none
      (ExecResult.exited 0 " M README.md\n") (ExecResult.exited 0 "abc1234\n") true)
    freshState "1.2.3\n" rfl rfl (fun _ _ => rfl) (by decide)).2.2.1 " M README.md\n" (by decide)).1

end VersionGen
